import Mathlib

/-!
Verification of the OpenLibrary OPDS data-provider record-mapping layer.

The Python source (pyopds2_openlibrary) is shallowly embedded below.
Pydantic models become Lean structures with Option fields; Python dicts
become association lists with assignment-overwrite semantics; Python
truthiness tests are made explicit (None and empty collections and the
integer 0 and the empty string are falsy); the one place where the code
can raise (zip over a missing author_key) is modelled with Except.
-/

deriving instance DecidableEq for Except

namespace OLProvider

/-- Models the opds2 Link pydantic model: the three fields the mapper sets. -/
structure Link where
  rel : Option String := none
  href : Option String := none
  type : Option String := none
deriving DecidableEq, Repr

/-- Models the opds2 Contributor: a name plus author links, as the mapper sets them. -/
structure Contributor where
  name : String
  links : List Link
deriving DecidableEq, Repr

/-- Models the opds2 Metadata pydantic model: the fields the mapper sets. -/
structure Metadata where
  type : String
  title : Option String := none
  subtitle : Option String := none
  author : Option (List Contributor) := none
  description : Option String := none
  language : List String := []
  numberOfPages : Option Int := none
deriving DecidableEq, Repr

/-- Fields shared between OpenLibrary works and editions (class BookSharedDoc). -/
structure BookSharedDoc where
  key : Option String := none
  title : Option String := none
  subtitle : Option String := none
  description : Option String := none
  cover_i : Option Int := none
  ebook_access : Option String := none
  language : Option (List String) := none
deriving DecidableEq, Repr

/-- The Literal type of EditionProvider.format in the source. -/
inductive OLFormat where
  | web
  | pdf
  | epub
  | audio
deriving DecidableEq, Repr

/-- Basically the acquisition info for an edition (class EditionProvider). -/
structure EditionProvider where
  access : Option String := none
  format : Option OLFormat := none
  price : Option Float := none
  url : Option String := none
  provider_name : Option String := none
deriving Repr

/-- Open Library edition document (class EditionDoc). -/
structure EditionDoc extends BookSharedDoc where
  providers : Option (List EditionProvider) := none
deriving Repr

/-- class EditionsResultSet. -/
structure EditionsResultSet where
  numFound : Option Int := none
  start : Option Int := none
  numFoundExact : Option Bool := none
  docs : Option (List EditionDoc) := none
deriving Repr

/-- The work-level search document (class OpenLibraryDataRecord). -/
structure OpenLibraryDataRecord extends BookSharedDoc where
  author_key : Option (List String) := none
  author_name : Option (List String) := none
  editions : Option EditionsResultSet := none
  number_of_pages_median : Option Int := none
deriving Repr

/-- OpenLibraryDataProvider.URL. -/
def URL : String := "https://openlibrary.org"

/-- A Python f-string renders None as the text None; present strings render as themselves. -/
def optStr : Option String → String
  | some s => s
  | none => "None"

/-- The type property: always the constant schema.org Book IRI. -/
def recordType : String := "http://schema.org/Book"

/-- The expression `self.editions.docs[0] if self.editions and self.editions.docs else None`
repeated at the top of links, images and metadata: the editions block must be
present and its docs list present and non-empty (Python truthiness). -/
def firstEdition (r : OpenLibraryDataRecord) : Option EditionDoc :=
  match r.editions with
  | some es =>
    match es.docs with
    | some (d :: _) => some d
    | _ => none
  | none => none

/-- `book = edition or self`: the first edition when one exists, else the work.
Only the shared fields of the result are ever read. -/
def effectiveBook (r : OpenLibraryDataRecord) : BookSharedDoc :=
  match firstEdition r with
  | some e => e.toBookSharedDoc
  | none => r.toBookSharedDoc

/-- map_ol_format_to_mime: the fixed format-to-MIME dictionary lookup. -/
def map_ol_format_to_mime : OLFormat → Option String
  | .web => some "text/html"
  | .pdf => some "application/pdf"
  | .epub => some "application/epub+zip"
  | .audio => some "audio/mpeg"

/-- One acquisition Link as built inside the list comprehension in links():
href from the provider url, rel from the access mode, and a MIME type only
when the format is truthy (`... if acquisition.format else None`). -/
def acquisitionLink (a : EditionProvider) : Link :=
  { href := a.url
    rel := some ("http://opds-spec.org/acquisition/" ++ optStr a.access)
    type :=
      match a.format with
      | some f => map_ol_format_to_mime f
      | none => none }

/-- OpenLibraryDataRecord.links(). The two structural links are always built;
acquisition links are appended only when there is an edition whose provider
list is truthy (present and non-empty). -/
def links (r : OpenLibraryDataRecord) : List Link :=
  let edition := firstEdition r
  let book := effectiveBook r
  let base : List Link :=
    [ { rel := some "self"
        href := some (URL ++ optStr book.key)
        type := some "text/html" },
      { rel := some "alternate"
        href := some (URL ++ optStr book.key ++ ".json")
        type := some "application/json" } ]
  match edition with
  | none => base
  | some e =>
    match e.providers with
    | none => base
    | some [] => base
    | some ps => base ++ ps.map acquisitionLink

/-- OpenLibraryDataRecord.images(). `if book.cover_i:` is Python truthiness on
an optional integer: absent and zero are both falsy. -/
def images (r : OpenLibraryDataRecord) : Option (List Link) :=
  let book := effectiveBook r
  match book.cover_i with
  | some c =>
    if c = 0 then none
    else
      some [ { href := some ("https://covers.openlibrary.org/b/id/" ++ toString c ++ "-L.jpg")
               type := some "image/jpeg"
               rel := some "cover" } ]
  | none => none

/-- One Contributor as built inside get_authors for a zipped (name, key) pair. -/
def contributorOf (nk : String × String) : Contributor :=
  { name := nk.1
    links := [ { href := some (URL ++ "/authors/" ++ nk.2)
                 type := some "text/html"
                 rel := some "author" } ] }

/-- get_authors inside metadata(). `if self.author_name:` is truthiness (absent
and empty both fall through to an implicit None). When author_name is truthy
the code evaluates `zip(self.author_name, self.author_key)`; with author_key
absent that zip raises TypeError, modelled as an error value. -/
def get_authors (r : OpenLibraryDataRecord) : Except String (Option (List Contributor)) :=
  match r.author_name with
  | none => .ok none
  | some [] => .ok none
  | some names =>
    match r.author_key with
    | none => .error "TypeError: zip argument is not iterable"
    | some keys => .ok (some ((names.zip keys).map contributorOf))

/-- An association list standing for a Python dict: lookup of the first
(unique) matching key. -/
def dictGet {α : Type} (m : List (String × α)) (k : String) : Option α :=
  match m with
  | [] => none
  | (k₁, v) :: rest => if k = k₁ then some v else dictGet rest k

/-- Python dict assignment `d[k] = v`: overwrite in place when the key exists
(keeping its insertion position), otherwise append. -/
def dictAssign (m : List (String × String)) (k v : String) : List (String × String) :=
  if (dictGet m k).isSome then
    m.map fun p => if p.1 = k then (k, v) else p
  else
    m ++ [(k, v)]

/-- marc_language_to_iso_639_1, parameterised by the fetched languages map
instead of the process-global cache: a plain dict get. -/
def marc_language_to_iso_639_1 (languagesMap : List (String × String)) (marc_code : String) :
    Option String :=
  dictGet languagesMap marc_code

/-- The language list comprehension in metadata():
`[lang for marc_lang in (book.language or []) if (lang := marc_language_to_iso_639_1(marc_lang))]`.
The walrus test is truthiness, so a missing mapping and an empty-string
mapping are both dropped. -/
def langFilter (languagesMap : List (String × String)) (langs : List String) : List String :=
  langs.filterMap fun marc_lang =>
    match marc_language_to_iso_639_1 languagesMap marc_lang with
    | some lang => if lang = "" then none else some lang
    | none => none

/-- OpenLibraryDataRecord.metadata(), parameterised by the languages map. -/
def metadata (languagesMap : List (String × String)) (r : OpenLibraryDataRecord) :
    Except String Metadata :=
  match get_authors r with
  | .error e => .error e
  | .ok authors =>
    let book := effectiveBook r
    .ok { type := recordType
          title := book.title
          subtitle := book.subtitle
          author := authors
          description := book.description
          language := langFilter languagesMap (book.language.getD [])
          numberOfPages := r.number_of_pages_median }

/-- One element of the array fetched from the language table endpoint
(OpenLibraryLanguageStub): a key plus an optional identifiers dict. -/
structure OpenLibraryLanguageStub where
  key : String
  identifiers : Option (List (String × List String)) := none
deriving Repr

/-- `key.split("/")[-1]`: the last path segment of the entry key, i.e. the
characters after the final slash (the whole string when no slash occurs,
the empty string when the key ends in a slash), exactly the last element
of a Python split on the slash character. -/
def lastSegment (s : String) : String :=
  String.mk ((s.data.reverse.takeWhile fun ch => ch ≠ '/').reverse)

/-- The body of the for-loop in fetch_languages_map for a single entry:
skip when identifiers is falsy (absent or the empty dict) or when the
iso_639_1 list is missing or empty; otherwise assign the first ISO code
under the last path segment of the key. -/
def languageEntryStep (languages : List (String × String)) (lang : OpenLibraryLanguageStub) :
    List (String × String) :=
  let marc_code := lastSegment lang.key
  match lang.identifiers with
  | none => languages
  | some identifiers =>
    if identifiers.isEmpty then languages
    else
      match dictGet identifiers "iso_639_1" with
      | none => languages
      | some [] => languages
      | some (c :: _) => dictAssign languages marc_code c

/-- fetch_languages_map, parameterised by the JSON array the endpoint returned. -/
def fetch_languages_map (data : List OpenLibraryLanguageStub) : List (String × String) :=
  data.foldl languageEntryStep []

/-- The process-wide memoisation state of fetch_languages_map under the
functools cache decorator: the table once built, plus a count of how many
network fetches have happened. -/
structure LanguagesCache where
  table : Option (List (String × String))
  fetchCount : Nat
deriving Repr

/-- A fresh process: no table yet, no fetch performed. -/
def initialCache : LanguagesCache := { table := none, fetchCount := 0 }

/-- marc_language_to_iso_639_1 as a stateful step over the memoised cache:
the first call builds the table from the fetched data (one fetch); later
calls reuse the stored table unchanged. -/
def translateCached (data : List OpenLibraryLanguageStub) (s : LanguagesCache) (code : String) :
    LanguagesCache × Option String :=
  match s.table with
  | some t => (s, dictGet t code)
  | none =>
    let t := fetch_languages_map data
    ({ table := some t, fetchCount := s.fetchCount + 1 }, dictGet t code)

/-- The fields list built in OpenLibraryDataProvider.search. -/
def search_fields : List String :=
  ["key", "title", "editions", "description", "providers", "author_name",
   "cover_i", "availability", "ebook_access", "author_key", "subtitle", "language",
   "number_of_pages_median"]

/-- The params dict built in OpenLibraryDataProvider.search. The sort field
is none exactly when the Python dict splat `{"sort": sort} if sort else {}`
omits it (sort absent or the empty string, both falsy). -/
structure SearchParams where
  editions : String
  q : String
  page : Int
  limit : Int
  sort : Option String
  fields : String
deriving Repr

/-- Construction of the params dict in search:
`"page": (offset // limit) + 1 if limit else 1` with Python floor division. -/
def search_params (query : String) (limit offset : Int) (sort : Option String) : SearchParams :=
  { editions := "true"
    q := query
    page := if limit ≠ 0 then Int.fdiv offset limit + 1 else 1
    limit := limit
    sort :=
      match sort with
      | some s => if s = "" then none else some s
      | none => none
    fields := String.intercalate "," search_fields }

/-- The providers of the effective book: the provider list of the first
edition when there is one (absent treated as empty), empty when the
effective book is the work. -/
def effectiveProviders (r : OpenLibraryDataRecord) : List EditionProvider :=
  match firstEdition r with
  | some e => e.providers.getD []
  | none => []

/-- The contribution of a single fetched language entry, following the stated
rule: entries whose identifiers dict is falsy, or whose iso_639_1 list is
missing or empty, contribute nothing; every other entry contributes the last
path segment of its key paired with the first ISO code. -/
def entryContribution (lang : OpenLibraryLanguageStub) : Option (String × String) :=
  match lang.identifiers with
  | none => none
  | some identifiers =>
    if identifiers.isEmpty then none
    else
      match dictGet identifiers "iso_639_1" with
      | some (c :: _) => some (lastSegment lang.key, c)
      | _ => none

/-- The value the finished table holds for a short code k: the ISO code of
the LAST entry of the fetched array that contributes k. Later duplicates for
the same short code overwrite earlier ones. -/
def lastContribFor (data : List OpenLibraryLanguageStub) (k : String) : Option String :=
  match data with
  | [] => none
  | lang :: rest =>
    match lastContribFor rest k with
    | some v => some v
    | none =>
      match entryContribution lang with
      | some p => if p.1 = k then some p.2 else none
      | none => none

/-- The length of the author list metadata() produces, when it produces one:
none when metadata() fails or sets no author list. -/
def authorsLength (languagesMap : List (String × String)) (r : OpenLibraryDataRecord) :
    Option Nat :=
  match metadata languagesMap r with
  | .ok m => m.author.map List.length
  | .error _ => none

/-! Concrete documents used by counterexamples and witnesses. -/

/-- C1 counterexample: a language table translating both the work code and the
edition code. -/
def tblC1 : List (String × String) := [("fre", "fr"), ("eng", "en")]

/-- C1 counterexample: an edition whose language differs from the work. -/
def editionC1 : EditionDoc := { key := some "/books/OL1M", language := some ["eng"] }

/-- C1 counterexample: a work in French whose first edition is in English. -/
def docC1 : OpenLibraryDataRecord :=
  { key := some "/works/OL1W", language := some ["fre"],
    editions := some { docs := some [editionC1] } }

/-- C1 witness: a one-entry language table. -/
def tblC1w : List (String × String) := [("eng", "en")]

/-- C1 witness: an edition with its own title, language and cover. -/
def editionC1w : EditionDoc :=
  { key := some "/books/OL1wM", title := some "Edition Title",
    language := some ["eng"], cover_i := some 12345 }

/-- C1 witness: a work carrying that edition. -/
def docC1w : OpenLibraryDataRecord :=
  { key := some "/works/OL1wW", title := some "Work Title",
    editions := some { docs := some [editionC1w] } }

/-- C1 witness: the metadata value produced for docC1w. -/
def mC1w : Metadata :=
  { type := recordType, title := some "Edition Title", language := ["en"] }

/-- C2 witness: one open-access web provider. -/
def provC2w : EditionProvider :=
  { access := some "open", format := some .web,
    url := some "https://openlibrary.org/books/OL2M" }

/-- C2 witness: an edition carrying that provider. -/
def editionC2w : EditionDoc := { key := some "/books/OL2M", providers := some [provC2w] }

/-- C2 witness: a work whose first edition carries one provider. -/
def docC2w : OpenLibraryDataRecord :=
  { key := some "/works/OL2W", editions := some { docs := some [editionC2w] } }

/-- C3 counterexample: two entries deriving the same short code with
different first ISO codes. -/
def dataC3 : List OpenLibraryLanguageStub :=
  [⟨"/languages/aaa", some [("iso_639_1", ["x"])]⟩,
   ⟨"/languages/aaa", some [("iso_639_1", ["y"])]⟩]

/-- C4 failing input: author_name present and non-empty while author_key is
absent. -/
def docC4 : OpenLibraryDataRecord :=
  { key := some "/works/OL4W", title := some "Some Work",
    author_name := some ["Ada Lovelace"] }

/-- C5 counterexample: equal-length (both empty) author arrays. -/
def docC5 : OpenLibraryDataRecord :=
  { key := some "/works/OL5W", author_name := some [], author_key := some [] }

/-- C5 witness: two names against one key. -/
def docC5w : OpenLibraryDataRecord :=
  { key := some "/works/OL5X", author_name := some ["A", "B"], author_key := some ["k1"] }

/-- C6 document: one known and one unknown language code, no editions. -/
def docC6 : OpenLibraryDataRecord := { key := some "/works/OL6W", language := some ["eng", "xyz"] }

/-- C6 witness: the metadata value produced for docC6 under the table
mapping eng to en. -/
def mC6 : Metadata := { type := recordType, language := ["en"] }

/-- C8 witness: a work with a cover and no editions. -/
def docC8 : OpenLibraryDataRecord := { key := some "/works/OL45804W", cover_i := some 8739161 }

/-- C8 witness: a work with no cover. -/
def docC8n : OpenLibraryDataRecord := { key := some "/works/OL45805W" }

/-- C10 witness: a work whose cover id is present but zero. -/
def docC10 : OpenLibraryDataRecord := { key := some "/works/OL10W", cover_i := some 0 }

/-- C10 witness: a work with no cover id at all. -/
def docC10n : OpenLibraryDataRecord := { key := some "/works/OL10X" }

/-! Dictionary lemmas: Python dict lookup and assignment over the association
list model. -/

/-- Unfolding equation: lookup in the empty dict. -/
theorem dictGet_nil {α : Type} (k : String) : dictGet ([] : List (String × α)) k = none := rfl

/-- Unfolding equation: lookup in a non-empty dict. -/
theorem dictGet_cons {α : Type} (k₁ : String) (v : α) (rest : List (String × α)) (k : String) :
    dictGet ((k₁, v) :: rest) k = if k = k₁ then some v else dictGet rest k := rfl

/-- A successful dict lookup comes from an entry of the list. -/
theorem dictGet_mem {α : Type} (m : List (String × α)) (k : String) (v : α)
    (h : dictGet m k = some v) : (k, v) ∈ m := by
  induction m with
  | nil => exact absurd h (by rw [dictGet_nil]; exact Option.noConfusion)
  | cons a rest ih =>
    obtain ⟨a₁, a₂⟩ := a
    rw [dictGet_cons] at h
    by_cases hk : k = a₁
    · rw [if_pos hk] at h
      injection h with h
      subst hk
      subst h
      exact List.Mem.head rest
    · rw [if_neg hk] at h
      exact List.Mem.tail _ (ih h)

/-- A dict lookup fails exactly when the key is not among the stored keys. -/
theorem dictGet_eq_none {α : Type} (m : List (String × α)) (k : String) :
    dictGet m k = none ↔ k ∉ m.map Prod.fst := by
  induction m with
  | nil => simp [dictGet_nil]
  | cons a rest ih =>
    obtain ⟨a₁, a₂⟩ := a
    rw [dictGet_cons]
    by_cases hk : k = a₁
    · rw [if_pos hk]
      simp [hk]
    · rw [if_neg hk]
      simp [hk, ih]

/-- Lookup after the in-place overwrite branch of dict assignment. -/
theorem dictGet_map_assign (m : List (String × String)) (k₀ v k : String) :
    dictGet (m.map fun p => if p.1 = k₀ then (k₀, v) else p) k =
      if k = k₀ then (dictGet m k₀).map fun _ => v else dictGet m k := by
  induction m with
  | nil =>
    rw [List.map_nil]
    split_ifs <;> rfl
  | cons a rest ih =>
    obtain ⟨a₁, a₂⟩ := a
    rw [List.map_cons]
    by_cases ha : a₁ = k₀
    · rw [if_pos ha]
      subst ha
      rw [dictGet_cons, dictGet_cons, dictGet_cons]
      by_cases hk : k = a₁
      · rw [if_pos hk, if_pos hk, if_pos rfl]
        rfl
      · rw [if_neg hk, if_neg hk, if_neg hk, ih, if_neg hk]
    · rw [if_neg ha]
      rw [dictGet_cons, dictGet_cons, dictGet_cons]
      by_cases hk : k = a₁
      · have hk0 : ¬k = k₀ := fun h => ha (hk.symm.trans h)
        rw [if_pos hk, if_neg hk0, if_pos hk]
      · rw [if_neg hk, ih, if_neg hk]
        by_cases hkk : k = k₀
        · have ha' : ¬k₀ = a₁ := fun h => ha h.symm
          rw [if_pos hkk, if_pos hkk, if_neg ha']
        · rw [if_neg hkk, if_neg hkk]

/-- Lookup distributes over list append, preferring the left part. -/
theorem dictGet_append (m₁ m₂ : List (String × String)) (k : String) :
    dictGet (m₁ ++ m₂) k =
      match dictGet m₁ k with
      | some v => some v
      | none => dictGet m₂ k := by
  induction m₁ with
  | nil => rw [List.nil_append, dictGet_nil]
  | cons a rest ih =>
    obtain ⟨a₁, a₂⟩ := a
    rw [List.cons_append, dictGet_cons, dictGet_cons]
    by_cases hk : k = a₁
    · rw [if_pos hk, if_pos hk]
    · rw [if_neg hk, if_neg hk, ih]

/-- Python dict assignment semantics: after the assignment of v under k₀,
looking up k₀ gives v and every other key is unchanged. -/
theorem dictGet_dictAssign (m : List (String × String)) (k₀ v k : String) :
    dictGet (dictAssign m k₀ v) k = if k = k₀ then some v else dictGet m k := by
  unfold dictAssign
  by_cases hs : (dictGet m k₀).isSome
  · rw [if_pos hs, dictGet_map_assign]
    obtain ⟨w, hw⟩ := Option.isSome_iff_exists.mp hs
    rw [hw]
    by_cases hk : k = k₀
    · rw [if_pos hk, if_pos hk]
      rfl
    · rw [if_neg hk, if_neg hk]
  · rw [if_neg hs, dictGet_append]
    have hnone : dictGet m k₀ = none := Option.not_isSome_iff_eq_none.mp hs
    by_cases hk : k = k₀
    · subst hk
      rw [hnone, if_pos rfl]
      rw [dictGet_cons, if_pos rfl]
    · rw [if_neg hk]
      cases hd : dictGet m k with
      | some w => rfl
      | none => rw [dictGet_cons, if_neg hk, dictGet_nil]

/-- The loop body of fetch_languages_map is exactly: assign the entry
contribution when there is one, leave the table unchanged otherwise. -/
theorem languageEntryStep_eq (m : List (String × String)) (lang : OpenLibraryLanguageStub) :
    languageEntryStep m lang =
      match entryContribution lang with
      | some p => dictAssign m p.1 p.2
      | none => m := by
  unfold languageEntryStep entryContribution
  cases lang.identifiers with
  | none => rfl
  | some ids =>
    by_cases hids : ids.isEmpty
    · simp [hids]
    · cases h : dictGet ids "iso_639_1" with
      | none => simp [hids, h]
      | some l => cases l <;> simp [hids, h]

/-- Lookup in the folded languages table: the last contribution for the key
wins, falling back to the accumulator when no entry contributes it. -/
theorem dictGet_fold_languages (data : List OpenLibraryLanguageStub) :
    ∀ (m : List (String × String)) (k : String),
      dictGet (data.foldl languageEntryStep m) k =
        match lastContribFor data k with
        | some v => some v
        | none => dictGet m k := by
  induction data with
  | nil => intro m k; rfl
  | cons lang rest ih =>
    intro m k
    rw [List.foldl_cons, ih, languageEntryStep_eq]
    cases hc : entryContribution lang with
    | none => cases hr : lastContribFor rest k <;> simp [lastContribFor, hc, hr]
    | some p =>
      obtain ⟨k₀, v₀⟩ := p
      cases hr : lastContribFor rest k with
      | some v => simp [lastContribFor, hc, hr]
      | none =>
        simp only [lastContribFor, hc, hr]
        rw [dictGet_dictAssign]
        by_cases hk : k = k₀
        · subst hk
          simp
        · have hk' : ¬k₀ = k := fun h => hk h.symm
          simp [hk, hk']

/-- Dict assignment preserves distinctness of the stored keys. -/
theorem keys_nodup_dictAssign (m : List (String × String)) (k v : String)
    (h : (m.map Prod.fst).Nodup) : ((dictAssign m k v).map Prod.fst).Nodup := by
  unfold dictAssign
  by_cases hs : (dictGet m k).isSome
  · rw [if_pos hs]
    have hmap : ((m.map fun p => if p.1 = k then (k, v) else p).map Prod.fst) = m.map Prod.fst := by
      rw [List.map_map]
      apply List.map_congr_left
      intro p _
      by_cases hpk : p.1 = k
      · simp only [Function.comp_apply, if_pos hpk]
        exact hpk.symm
      · simp only [Function.comp_apply, if_neg hpk]
    rw [hmap]
    exact h
  · rw [if_neg hs, List.map_append]
    have hk : k ∉ m.map Prod.fst :=
      (dictGet_eq_none m k).mp (Option.not_isSome_iff_eq_none.mp hs)
    simp [List.nodup_append, h, hk]

/-- Folding the language entries preserves distinctness of the stored keys. -/
theorem keys_nodup_fold (data : List OpenLibraryLanguageStub) :
    ∀ m : List (String × String), (m.map Prod.fst).Nodup →
      ((data.foldl languageEntryStep m).map Prod.fst).Nodup := by
  induction data with
  | nil => intro m h; exact h
  | cons lang rest ih =>
    intro m h
    rw [List.foldl_cons, languageEntryStep_eq]
    cases hc : entryContribution lang with
    | none => exact ih m h
    | some p => exact ih _ (keys_nodup_dictAssign m p.1 p.2 h)

/-! The claims. -/

/-- get_authors reads only the work-level author arrays: erasing the
editions block does not change it. -/
theorem get_authors_erase_editions (r : OpenLibraryDataRecord) :
    get_authors { r with editions := none } = get_authors r := rfl

/-- The language comprehension equals a plain table-lookup filter whenever
the table holds no empty-string ISO values (the walrus truthiness test then
only drops missing mappings). -/
theorem langFilter_eq_filterMap (lm : List (String × String))
    (hlm : ∀ p ∈ lm, p.2 ≠ "") (l : List String) :
    langFilter lm l = l.filterMap (dictGet lm) := by
  unfold langFilter marc_language_to_iso_639_1
  induction l with
  | nil => rfl
  | cons c t ih =>
    cases hd : dictGet lm c with
    | none => simp [List.filterMap_cons, hd, ih]
    | some s =>
      have hs : s ≠ "" := hlm (c, s) (dictGet_mem lm c s hd)
      simp [List.filterMap_cons, hd, hs, ih]

/-- C1 counterexample: a work in French whose first edition is in English.
The produced metadata languages come from the edition (the effective book),
not from the work-level document, refuting the claim that languages are
always derived from the work. -/
theorem c1_counterexample :
    docC1.language = some ["fre"] ∧
    (metadata tblC1 docC1).map Metadata.language = Except.ok ["en"] ∧
    langFilter tblC1 ["fre"] = ["fr"] ∧
    (["en"] : List String) ≠ ["fr"] :=
  ⟨rfl, rfl, rfl, by decide⟩

/-- C1 (amended): the effective book is the first edition when the editions
block is present with a non-empty list, else the work itself; title,
subtitle, description, cover id and the structural self link are derived
from the effective book; authors are always derived from the work-level
arrays (erasing the editions block leaves them unchanged); languages are
derived from the EFFECTIVE BOOK, not the work, and translated. -/
theorem c1_effective_book_sourcing (lm : List (String × String)) (r : OpenLibraryDataRecord) :
    (∀ es e rest, r.editions = some es → es.docs = some (e :: rest) →
      effectiveBook r = e.toBookSharedDoc) ∧
    (firstEdition r = none → effectiveBook r = r.toBookSharedDoc) ∧
    (∀ m, metadata lm r = .ok m →
      m.title = (effectiveBook r).title ∧
      m.subtitle = (effectiveBook r).subtitle ∧
      m.description = (effectiveBook r).description ∧
      m.language = langFilter lm ((effectiveBook r).language.getD [])) ∧
    ((metadata lm r).map Metadata.author =
      (metadata lm { r with editions := none }).map Metadata.author) ∧
    ((links r).head? = some { rel := some "self",
                              href := some (URL ++ optStr (effectiveBook r).key),
                              type := some "text/html" }) ∧
    (∀ c, (effectiveBook r).cover_i = some c → c ≠ 0 →
      images r = some [ { href := some ("https://covers.openlibrary.org/b/id/" ++ toString c ++ "-L.jpg")
                          type := some "image/jpeg"
                          rel := some "cover" } ]) := by
  refine ⟨?_, ?_, ?_, ?_, ?_, ?_⟩
  · intro es e rest h1 h2
    simp only [effectiveBook, firstEdition, h1, h2]
  · intro hfe
    simp only [effectiveBook, hfe]
  · intro m hm
    cases hga : get_authors r with
    | error e =>
      simp only [metadata, hga] at hm
      exact Except.noConfusion hm
    | ok authors =>
      simp only [metadata, hga] at hm
      injection hm with hm
      rw [← hm]
      exact ⟨rfl, rfl, rfl, rfl⟩
  · cases hga : get_authors r <;>
      simp [metadata, hga, get_authors_erase_editions r, Except.map]
  · cases hfe : firstEdition r with
    | none => simp only [links, hfe]; rfl
    | some e =>
      cases hps : e.providers with
      | none => simp only [links, hfe, hps]; rfl
      | some ps => cases ps <;> (simp only [links, hfe, hps]; rfl)
  · intro c hc hc0
    simp only [images]
    rw [hc]
    simp [hc0]

/-- C1 witness: the sourcing rules applied at a concrete work carrying one
edition with its own title, language and cover. -/
theorem c1_effective_book_sourcing_witness :
    effectiveBook docC1w = editionC1w.toBookSharedDoc ∧
    mC1w.title = (effectiveBook docC1w).title ∧
    images docC1w = some [ { href := some "https://covers.openlibrary.org/b/id/12345-L.jpg"
                             type := some "image/jpeg"
                             rel := some "cover" } ] := by
  obtain h := c1_effective_book_sourcing tblC1w docC1w
  exact ⟨h.1 { docs := some [editionC1w] } editionC1w [] rfl rfl,
         (h.2.2.1 mC1w (by decide)).1,
         (h.2.2.2.2.2 12345 rfl (by decide)).trans (by decide)⟩

/-- C2: for every document whose effective book key is present, links()
returns the self html link first, the alternate json link second, then one
acquisition link per provider of the effective edition in provider-list
order, with rel built from the access mode and MIME type from the format
table (omitted when the format is absent); the total count is two plus the
provider count, hence exactly two with no edition or no providers. -/
theorem c2_links_shape (r : OpenLibraryDataRecord) (k : String)
    (h : (effectiveBook r).key = some k) :
    links r =
      { rel := some "self", href := some (URL ++ k), type := some "text/html" } ::
      { rel := some "alternate", href := some (URL ++ k ++ ".json"), type := some "application/json" } ::
      (effectiveProviders r).map (fun a =>
        { href := a.url
          rel := some ("http://opds-spec.org/acquisition/" ++ optStr a.access)
          type :=
            match a.format with
            | some f => map_ol_format_to_mime f
            | none => none }) ∧
    (links r).length = 2 + (effectiveProviders r).length := by
  have hb : optStr (effectiveBook r).key = k := by rw [h]; rfl
  have hmain : links r =
      { rel := some "self", href := some (URL ++ k), type := some "text/html" } ::
      { rel := some "alternate", href := some (URL ++ k ++ ".json"), type := some "application/json" } ::
      (effectiveProviders r).map (fun a =>
        { href := a.url
          rel := some ("http://opds-spec.org/acquisition/" ++ optStr a.access)
          type :=
            match a.format with
            | some f => map_ol_format_to_mime f
            | none => none }) := by
    cases hfe : firstEdition r with
    | none =>
      simp only [links, effectiveProviders, hfe]
      rw [hb]
      rfl
    | some e =>
      cases hps : e.providers with
      | none =>
        simp only [links, effectiveProviders, hfe, hps]
        rw [hb]
        rfl
      | some ps =>
        cases ps with
        | nil =>
          simp only [links, effectiveProviders, hfe, hps]
          rw [hb]
          rfl
        | cons p pt =>
          simp only [links, effectiveProviders, hfe, hps]
          rw [hb]
          rfl
  refine ⟨hmain, ?_⟩
  rw [hmain]
  simp only [List.length_cons, List.length_map]
  omega

/-- C2 witness: a work with one edition carrying one provider yields exactly
the two structural links followed by one acquisition link. -/
theorem c2_links_shape_witness :
    (effectiveBook docC2w).key = some "/books/OL2M" ∧
    links docC2w =
      [ { rel := some "self", href := some "https://openlibrary.org/books/OL2M", type := some "text/html" },
        { rel := some "alternate", href := some "https://openlibrary.org/books/OL2M.json", type := some "application/json" },
        { rel := some "http://opds-spec.org/acquisition/open", href := some "https://openlibrary.org/books/OL2M", type := some "text/html" } ] ∧
    (links docC2w).length = 2 + (effectiveProviders docC2w).length :=
  ⟨rfl, ((c2_links_shape docC2w "/books/OL2M" rfl).1).trans (by decide),
   (c2_links_shape docC2w "/books/OL2M" rfl).2⟩

/-- C6: language codes of the effective book without an entry in the
language table are silently dropped and codes with an entry are replaced by
their ISO value: for a table with no empty ISO values the produced language
list is exactly the table-lookup filter of the effective book codes, and
with the table mapping eng to en, a document with languages eng and xyz
yields exactly en. -/
theorem c6_unknown_language_dropped :
    (∀ lm : List (String × String), (∀ p ∈ lm, p.2 ≠ "") →
      ∀ (r : OpenLibraryDataRecord) (m : Metadata), metadata lm r = .ok m →
        m.language = ((effectiveBook r).language.getD []).filterMap (dictGet lm)) ∧
    (metadata [("eng", "en")] docC6).map Metadata.language = Except.ok ["en"] := by
  constructor
  · intro lm hlm r m hm
    cases hga : get_authors r with
    | error e =>
      simp only [metadata, hga] at hm
      exact Except.noConfusion hm
    | ok authors =>
      simp only [metadata, hga] at hm
      injection hm with hm
      rw [← hm]
      exact langFilter_eq_filterMap lm hlm _
  · rfl

/-- C6 witness: the drop rule applied at the concrete table and document of
the spec example. -/
theorem c6_unknown_language_dropped_witness :
    mC6.language = ((effectiveBook docC6).language.getD []).filterMap (dictGet [("eng", "en")]) :=
  c6_unknown_language_dropped.1 [("eng", "en")] (by decide) docC6 mC6 (by decide)

/-- C3 counterexample: two fetched entries derive the same short code aaa with
first ISO codes x then y; the built table holds y, the value of the LATER
entry, so the first inserted value does not win and later duplicates are not
ignored. -/
theorem c3_counterexample :
    fetch_languages_map dataC3 = [("aaa", "y")] ∧
    dictGet (fetch_languages_map dataC3) "aaa" ≠ some "x" := by
  constructor
  · rfl
  · intro h
    exact absurd h (by decide)

/-- C3 (amended): the language table maps, for each entry with a non-empty
iso_639_1 list under a truthy identifiers dict, the last path segment of the
entry key to the first ISO code; skipped entries contribute nothing; when two
entries yield the same short code the LAST inserted value wins (later
duplicates overwrite earlier ones), and at most one value per short code
survives (the stored keys are distinct). -/
theorem c3_languages_map_last_wins (data : List OpenLibraryLanguageStub) (k : String) :
    dictGet (fetch_languages_map data) k = lastContribFor data k ∧
    ((fetch_languages_map data).map Prod.fst).Nodup := by
  constructor
  · rw [fetch_languages_map, dictGet_fold_languages data [] k]
    cases lastContribFor data k <;> rfl
  · exact keys_nodup_fold data [] (by simp)

/-- C4 (code bug): on a document whose author_name is present and non-empty
while author_key is absent, metadata() does not return normally: the zip over
the absent author_key raises a TypeError (modelled as an error value), while
links() and images() still succeed on the same document. -/
theorem c4_zip_type_error :
    metadata [] docC4 = Except.error "TypeError: zip argument is not iterable" ∧
    (links docC4).length = 2 ∧
    images docC4 = none := by
  refine ⟨rfl, rfl, rfl⟩

/-- C5 counterexample: for the document with equal-length (both empty) author
arrays, metadata() produces no author list at all (the author field is
absent), not a list of the common length min 0 0 = 0. -/
theorem c5_counterexample :
    docC5.author_name = some [] ∧ docC5.author_key = some [] ∧
    authorsLength [] docC5 = none ∧ authorsLength [] docC5 ≠ some (Nat.min 0 0) := by
  refine ⟨rfl, rfl, rfl, by decide⟩

/-- C5 (amended): when author_name is present and non-empty and author_key is
present, metadata() succeeds, its author list pairs the Nth name with the Nth
key truncating at the shorter array (zip semantics), and the list length is
min of the two array lengths; when author_name is absent or empty, metadata()
sets no author list. -/
theorem c5_author_pairing (lm : List (String × String)) (r : OpenLibraryDataRecord) :
    (∀ names keys, r.author_name = some names → names ≠ [] → r.author_key = some keys →
      (∃ m, metadata lm r = .ok m ∧
        m.author = some ((names.zip keys).map contributorOf)) ∧
      authorsLength lm r = some (Nat.min names.length keys.length)) ∧
    ((r.author_name = none ∨ r.author_name = some []) →
      ∀ m, metadata lm r = .ok m → m.author = none) := by
  constructor
  · intro names keys h1 h2 h3
    have hga : get_authors r = .ok (some ((names.zip keys).map contributorOf)) := by
      unfold get_authors
      rw [h1, h3]
      cases names with
      | nil => exact absurd rfl h2
      | cons n t => rfl
    have hmeta : metadata lm r = .ok
        { type := recordType
          title := (effectiveBook r).title
          subtitle := (effectiveBook r).subtitle
          author := some ((names.zip keys).map contributorOf)
          description := (effectiveBook r).description
          language := langFilter lm ((effectiveBook r).language.getD [])
          numberOfPages := r.number_of_pages_median } := by
      unfold metadata
      rw [hga]
    refine ⟨⟨_, hmeta, rfl⟩, ?_⟩
    unfold authorsLength
    rw [hmeta]
    simp [List.length_map, List.length_zip]
  · intro h m hm
    have hga : get_authors r = .ok none := by
      unfold get_authors
      rcases h with h | h <;> rw [h]
    unfold metadata at hm
    rw [hga] at hm
    injection hm with hm
    rw [← hm]

/-- C5 witness: two names against one key give an author list of length
min 2 1 = 1. -/
theorem c5_author_pairing_witness :
    authorsLength [] docC5w = some (Nat.min 2 1) ∧ Nat.min 2 1 = 1 :=
  ⟨((c5_author_pairing [] docC5w).1 ["A", "B"] ["k1"] rfl (by decide) rfl).2, by decide⟩

/-- C7: the language table is built at most once: the first translate call
from a fresh cache performs exactly one fetch; a later call in the same
process leaves the cache unchanged (no second fetch), and translating the
same code again returns the same result. -/
theorem c7_cache_built_once (data : List OpenLibraryLanguageStub) (c c' : String) :
    (translateCached data initialCache c).1.fetchCount = 1 ∧
    (translateCached data (translateCached data initialCache c).1 c').1 =
      (translateCached data initialCache c).1 ∧
    (translateCached data (translateCached data initialCache c).1 c).2 =
      (translateCached data initialCache c).2 :=
  ⟨rfl, rfl, rfl⟩

/-- C8: when the effective book has a (nonzero) cover identifier, images()
returns exactly one cover Link with the covers URL, JPEG MIME type and cover
rel; when the effective book has no cover identifier, images() returns
absence (none), not an empty list. -/
theorem c8_cover_images :
    (∀ (r : OpenLibraryDataRecord) (c : Int), (effectiveBook r).cover_i = some c → c ≠ 0 →
      images r = some [ { href := some ("https://covers.openlibrary.org/b/id/" ++ toString c ++ "-L.jpg")
                          type := some "image/jpeg"
                          rel := some "cover" } ]) ∧
    (∀ r : OpenLibraryDataRecord, (effectiveBook r).cover_i = none → images r = none) := by
  constructor
  · intro r c h hc
    simp only [images]
    rw [h]
    simp [hc]
  · intro r h
    simp only [images]
    rw [h]

/-- C8 witness: the spec example, a work with cover 8739161 and no editions
gives one cover link ending in -L.jpg, and a coverless work gives none. -/
theorem c8_cover_images_witness :
    images docC8 = some [ { href := some "https://covers.openlibrary.org/b/id/8739161-L.jpg"
                            type := some "image/jpeg"
                            rel := some "cover" } ] ∧
    images docC8n = none :=
  ⟨(c8_cover_images.1 docC8 8739161 rfl (by decide)).trans (by decide),
   c8_cover_images.2 docC8n rfl⟩

/-- C9: the page number sent to the search endpoint is floor(offset / limit)
plus one when limit is nonzero, and one when limit is zero; in particular
offset twenty with limit ten gives page three. -/
theorem c9_pagination :
    (∀ (q : String) (s : Option String) (offset limit : Int), limit ≠ 0 →
      (search_params q limit offset s).page = Int.fdiv offset limit + 1) ∧
    (∀ (q : String) (s : Option String) (offset : Int),
      (search_params q 0 offset s).page = 1) ∧
    (search_params "roald dahl" 10 20 none).page = 3 := by
  refine ⟨?_, ?_, by decide⟩
  · intro q s offset limit h
    unfold search_params
    rw [if_pos h]
  · intro q s offset
    unfold search_params
    rw [if_neg (by decide)]

/-- C9 witness: the pagination rule applied at offset twenty, limit ten, and
at limit zero. -/
theorem c9_pagination_witness :
    (search_params "test" 10 20 none).page = Int.fdiv 20 10 + 1 ∧
    (search_params "test" 0 7 none).page = 1 :=
  ⟨c9_pagination.1 "test" none 20 10 (by decide), c9_pagination.2.1 "test" none 7⟩

/-- C10: a present but zero cover identifier on the effective book makes
images() return absence, exactly as for a document with no cover identifier
at all, because the test is on the numeric value truthiness. -/
theorem c10_zero_cover (r r' : OpenLibraryDataRecord)
    (h : (effectiveBook r).cover_i = some 0) (h' : (effectiveBook r').cover_i = none) :
    images r = none ∧ images r = images r' := by
  have h1 : images r = none := by
    simp only [images]
    rw [h]
    rfl
  have h2 : images r' = none := by
    simp only [images]
    rw [h']
  exact ⟨h1, h1.trans h2.symm⟩

/-- C10 witness: a work with cover id zero and a work with no cover id. -/
theorem c10_zero_cover_witness :
    images docC10 = none ∧ images docC10 = images docC10n :=
  c10_zero_cover docC10 docC10n rfl rfl

end OLProvider
